import Mathlib

/-!
Verification of the Product-Hunt discovery-and-enrichment pipeline.

Shallow embedding of the server-side services:
  - `RSS`      models `server/services/rssService.js` (normalizer),
  - `DbSvc`    models `server/services/dbService.js` (record store, dedup index),
  - `CacheSvc` models `server/services/cacheService.js` (two-tier cache),
  - `SchedSvc` models `server/services/scheduleService.js` (run gate),
  - `Sheets`   models `server/services/googleSheetsService.js` (sink reconciler),
  - `LISvc`    models `server/services/linkedinEnrichmentService.js`,
  - `App`      models the approval route of `server/app.js`.

Machine integers do not occur; JavaScript numbers used by this code are
non-negative millisecond timestamps and counts, modelled as `Nat`.
Wall-clock reads (`Date.now()`, `new Date()`) become explicit `now` parameters,
and the random `uuidv4()` becomes an explicit fresh-id parameter.
-/

set_option linter.unusedVariables false

namespace PH

/-! JavaScript string and object helpers shared by all services. -/

/-- `s.toLowerCase()` (the code only ever feeds ASCII-relevant data). -/
def lowerStr (s : String) : String := (s.toList.map Char.toLower).asString

/-- JS `\s` whitespace class restricted to the ASCII whitespace that occurs in feeds. -/
def isWs (c : Char) : Bool := c.isWhitespace

/-- `String.prototype.trim()` on a character list. -/
def trimList (l : List Char) : List Char :=
  ((l.dropWhile isWs).reverse.dropWhile isWs).reverse

/-- `String.prototype.trim()`. -/
def trimStr (s : String) : String := (trimList s.toList).asString

/-- `s.startsWith(pre)`. -/
def jsStartsWith (s pre : String) : Bool := pre.toList.isPrefixOf s.toList

/-- Helper for `includes`: does `needle` occur as a prefix of some suffix? -/
def containsSubAux (needle : List Char) : List Char → Bool
  | [] => needle.isEmpty
  | c :: rest => needle.isPrefixOf (c :: rest) || containsSubAux needle rest

/-- `hay.includes(needle)`. -/
def containsSub (hay needle : String) : Bool := containsSubAux needle.toList hay.toList

/-- JS truthiness of a nullable string: `null` and `""` are falsy. -/
def strTruthy : Option String → Bool
  | none => false
  | some s => !(s == "")

/-- `x || d` for a nullable string `x` and string default `d`. -/
def jsOrStr (o : Option String) (d : String) : String :=
  match o with
  | some s => if s = "" then d else s
  | none => d

/-- `x ? x : null` / `x || null` for a nullable string: collapses `""` to `null`. -/
def jsOrNull (o : Option String) : Option String :=
  match o with
  | some s => if s = "" then none else some s
  | none => none

/-- Key lookup in a JS object / `Map`, modelled as an association list
whose order is insertion order. -/
def lookupKV {α : Type} : List (String × α) → String → Option α
  | [], _ => none
  | e :: rest, k => if e.1 = k then some e.2 else lookupKV rest k

/-- Key update in a JS object / `Map`: setting an existing key keeps its
position, setting a new key appends it (JS insertion-order semantics). -/
def setKV {α : Type} : List (String × α) → String → α → List (String × α)
  | [], k, v => [(k, v)]
  | e :: rest, k, v => if e.1 = k then (k, v) :: rest else e :: setKV rest k v

/-- `delete obj[k]` / `map.delete(k)`. -/
def delKV {α : Type} : List (String × α) → String → List (String × α)
  | [], _ => []
  | e :: rest, k => if e.1 = k then rest else e :: delKV rest k

/-- `replace(/\s+/g, String.mk [repl])`: every maximal whitespace run becomes
one copy of `repl`.  The boolean argument records whether the previous
character belonged to a whitespace run. -/
def collapseWsWith (repl : Char) : Bool → List Char → List Char
  | _, [] => []
  | prev, c :: rest =>
    if isWs c then
      if prev then collapseWsWith repl true rest
      else repl :: collapseWsWith repl true rest
    else c :: collapseWsWith repl false rest

/-- `split(/\s+/)` as used on already-trimmed lowercase names.  JS also emits a
leading empty token when the string starts with whitespace; every use site
ignores tokens of length `≤ 2`, so empty tokens are dropped here. -/
def splitWsAux : List Char → List Char → List (List Char)
  | acc, [] => if acc.isEmpty then [] else [acc.reverse]
  | acc, c :: rest =>
    if isWs c then
      if acc.isEmpty then splitWsAux [] rest else acc.reverse :: splitWsAux [] rest
    else splitWsAux (c :: acc) rest

/-- `split(/\s+/)` yielding strings. -/
def splitWs (s : String) : List String := (splitWsAux [] s.toList).map List.asString

/-- Case-insensitive character comparison (regex `i` flag). -/
def eqCI (a b : Char) : Bool := a.toLower == b.toLower

/-- Match a literal pattern case-insensitively at the head of a list,
returning the remainder on success. -/
def dropPreCI : List Char → List Char → Option (List Char)
  | [], l => some l
  | _ :: _, [] => none
  | p :: ps, c :: cs => if eqCI p c then dropPreCI ps cs else none

/-- `replace(/<[^>]*>/g, "")`.  The accumulator holds the characters seen since
an unmatched `<` (reversed); if the input ends before a `>` arrives, the `<`
and those characters are emitted unchanged, exactly as the regex leaves an
unmatched `<` in place. -/
def stripTagsAux : Option (List Char) → List Char → List Char
  | none, [] => []
  | some buf, [] => '<' :: buf.reverse
  | none, c :: rest =>
    if c = '<' then stripTagsAux (some []) rest else c :: stripTagsAux none rest
  | some buf, c :: rest =>
    if c = '>' then stripTagsAux none rest else stripTagsAux (some (c :: buf)) rest

/-- `replace(/<[^>]*>/g, "")`. -/
def stripTags (l : List Char) : List Char := stripTagsAux none l

/-- Global literal replacement, fuelled by the input length (each step either
emits or consumes at least one character, so the fuel never runs out). -/
def replaceSubAux (pat rep : List Char) : Nat → List Char → List Char
  | _, [] => []
  | 0, l => l
  | fuel + 1, c :: rest =>
    if pat.isPrefixOf (c :: rest) then
      match pat with
      | [] => c :: replaceSubAux pat rep fuel rest
      | _ :: pt => rep ++ replaceSubAux pat rep fuel (rest.drop pt.length)
    else c :: replaceSubAux pat rep fuel rest

/-- `replace(lit, rep)` with a global flag, for literal patterns. -/
def replaceSub (pat rep l : List Char) : List Char := replaceSubAux pat rep l.length l

/-! URL parsing.  The repository calls the platform WHATWG `URL` constructor
and reads `origin` and `pathname`; that parser is not part of the repository,
so it is modelled here for the `scheme://host/path?query#fragment` shapes the
feeds produce: scheme and host are lowercased, `origin` is
`scheme + "://" + host`, `pathname` is the part from the first `/` up to `?`
or `#` (defaulting to `/`), and anything not of this shape fails to parse
(the calling code catches the failure and falls back to the raw string). -/

/-- Split `scheme://rest` at the first colon, requiring it to be followed by
`//`; fails otherwise. -/
def splitScheme : List Char → Option (List Char × List Char)
  | [] => none
  | c :: rest =>
    if c = ':' then
      match rest with
      | '/' :: '/' :: r => some ([], r)
      | _ => none
    else
      match splitScheme rest with
      | some (pre, post) => some (c :: pre, post)
      | none => none

structure Url where
  origin : String
  pathname : String
  deriving DecidableEq

def notPathDelim (c : Char) : Bool := !(c == '/' || c == '?' || c == '#')

def notQueryDelim (c : Char) : Bool := !(c == '?' || c == '#')

/-- Model of `new URL(s)` restricted to the shapes described above. -/
def parseUrl (s : String) : Option Url :=
  match splitScheme s.toList with
  | none => none
  | some (scheme, rest) =>
    if scheme.isEmpty || !(scheme.all Char.isAlpha) then none
    else
      let host := rest.takeWhile notPathDelim
      let after := rest.dropWhile notPathDelim
      if host.isEmpty then none
      else
        let path :=
          match after with
          | '/' :: _ => after.takeWhile notQueryDelim
          | _ => ['/']
        some { origin := ((scheme.map Char.toLower) ++ ':' :: '/' :: '/' :: host.map Char.toLower).asString,
               pathname := path.asString }

/-- `normalizeLink` / `normalizeProductHuntLink`: the same body appears in
`rssService.js`, `dbService.js` and `googleSheetsService.js` — parse the URL,
return `origin + pathname` with a single trailing slash removed
(`replace(/\/$/, "")`), and fall back to the raw input when parsing fails;
the empty string maps to itself (`if (!url) return ""`). -/
def normalizeLink (url : String) : String :=
  if url = "" then ""
  else
    match parseUrl url with
    | some u =>
      let p := u.pathname.toList
      let p2 :=
        match p.reverse with
        | '/' :: r => r.reverse
        | _ => p
      u.origin ++ p2.asString
    | none => url

namespace RSS

/-! Embedding of `RSSService` (`server/services/rssService.js`): the
normalizer that turns a raw feed item into a `ProductData` or rejects it. -/

/-- `cleanTitle`: strip a case-insensitive `Product Hunt:` prefix with its
trailing whitespace (`/^Product Hunt:\s*/i`), strip a trailing
`- Product Hunt` with surrounding whitespace (`/\s*-\s*Product Hunt$/i`),
trim, and truncate to 200 characters.  The suffix is matched on the reversed
character list. -/
def cleanTitle (t : String) : String :=
  let l := t.toList
  let l1 :=
    match dropPreCI "Product Hunt:".toList l with
    | some rest => rest.dropWhile isWs
    | none => l
  let r := l1.reverse
  let l2 :=
    match dropPreCI "Product Hunt".toList.reverse r with
    | some r1 =>
      match r1.dropWhile isWs with
      | '-' :: r3 => (r3.dropWhile isWs).reverse
      | _ => l1
    | none => l1
  ((trimList l2).take 200).asString

/-- `cleanMakerName` (RSS variant): strip markup tags, remove `@` and `#`,
trim, truncate to 100 characters. -/
def cleanMakerName (maker : String) : String :=
  let l := stripTags maker.toList
  let l2 := l.filter (fun c => !(c == '@' || c == '#'))
  ((trimList l2).take 100).asString

/-- Strip a trailing `Discussion | Link` footer (`/Discussion\s*\|\s*Link\s*$/i`),
matched on the reversed character list. -/
def stripFooterDL (l : List Char) : List Char :=
  match dropPreCI "Link".toList.reverse (l.reverse.dropWhile isWs) with
  | some r1 =>
    match r1.dropWhile isWs with
    | '|' :: r2 =>
      match dropPreCI "Discussion".toList.reverse (r2.dropWhile isWs) with
      | some r3 => r3.reverse
      | none => l
    | _ => l
  | none => l

/-- Strip a trailing `Discussion` (`/Discussion\s*$/i`). -/
def stripFooterD (l : List Char) : List Char :=
  match dropPreCI "Discussion".toList.reverse (l.reverse.dropWhile isWs) with
  | some r => r.reverse
  | none => l

/-- Strip a trailing `| Link` (`/\|\s*Link\s*$/i`). -/
def stripFooterL (l : List Char) : List Char :=
  match dropPreCI "Link".toList.reverse (l.reverse.dropWhile isWs) with
  | some r1 =>
    match r1.dropWhile isWs with
    | '|' :: r2 => r2.reverse
    | _ => l
  | none => l

/-- `cleanDescription`: strip markup, decode the five HTML entities, collapse
whitespace, trim, strip the boilerplate footers, trim again; results shorter
than 10 characters, equal (case-insensitively) to `no description`, or equal
to `|` collapse to the empty string; otherwise truncate to 500 characters. -/
def cleanDescription (description : String) : String :=
  if description = "" then ""
  else
    let l := stripTags description.toList
    let l := replaceSub "&quot;".toList "\"".toList l
    let l := replaceSub "&amp;".toList "&".toList l
    let l := replaceSub "&lt;".toList "<".toList l
    let l := replaceSub "&gt;".toList ">".toList l
    let l := replaceSub "&nbsp;".toList " ".toList l
    let l := collapseWsWith ' ' false l
    let cleaned := trimList l
    let cleaned := stripFooterDL cleaned
    let cleaned := stripFooterD cleaned
    let cleaned := stripFooterL cleaned
    let cleaned := trimList cleaned
    if cleaned.length < 10 ∨ lowerStr cleaned.asString = "no description" ∨ cleaned.asString = "|"
    then ""
    else (cleaned.take 500).asString

/-- Character class `[^<>\n,]` of the maker-extraction capture groups. -/
def capAllowed (c : Char) : Bool := !(c == '<' || c == '>' || c == '\n' || c == ',')

/-- Try one maker pattern (`keyword`, then one-or-more separator characters,
then a maximal non-empty run of `[^<>\n,]`) at the head of the list.  The
real regexes are greedy without needing backtracking except in one corner:
when the separator run is followed by `<`, `>`, `,` or the end of input, the
regex can backtrack to capture trailing plain spaces, which the subsequent
`trim` in `cleanMakerName` erases anyway; that corner is modelled as a failed
match. -/
def tryPatAt (kw : List Char) (sep : Char → Bool) (l : List Char) : Option (List Char) :=
  match dropPreCI kw l with
  | none => none
  | some rest =>
    let seps := rest.takeWhile sep
    let rest2 := rest.dropWhile sep
    if seps.isEmpty then none
    else
      let cap := rest2.takeWhile capAllowed
      if cap.isEmpty then none else some cap

/-- Leftmost match of one maker pattern (`content.match(re)`). -/
def searchPat (kw : List Char) (sep : Char → Bool) : List Char → Option (List Char)
  | [] => none
  | c :: rest =>
    match tryPatAt kw sep (c :: rest) with
    | some cap => some cap
    | none => searchPat kw sep rest

/-- `extractMakerFromContent`: try `/by\s+([^<>\n,]+)/i`,
`/maker[:\s]+([^<>\n,]+)/i`, `/created by\s+([^<>\n,]+)/i`,
`/from\s+([^<>\n,]+)/i` in order; the first matching pattern's capture is
cleaned and returned. -/
def extractMakerFromContent (content : String) : Option String :=
  if content = "" then none
  else
    let l := content.toList
    let sepMaker := fun c => c == ':' || isWs c
    let m :=
      match searchPat "by".toList isWs l with
      | some cap => some cap
      | none =>
        match searchPat "maker".toList sepMaker l with
        | some cap => some cap
        | none =>
          match searchPat "created by".toList isWs l with
          | some cap => some cap
          | none => searchPat "from".toList isWs l
    match m with
    | some cap => some (cleanMakerName cap.asString)
    | none => none

/-- One raw feed item, with the custom fields registered on the parser.
`pubDate` is modelled as an epoch-millisecond timestamp (the source converts
it through `new Date(...).toISOString()`). -/
structure FeedItem where
  title : Option String := none
  link : Option String := none
  content : Option String := none
  description : Option String := none
  rawDescription : Option String := none
  creator : Option String := none
  author : Option String := none
  pubDate : Option Nat := none
  deriving DecidableEq

/-- The normalized product data produced by `extractProductData`.  The
constant-initialized counters (`upvotes: 0`, `phTopics: []`, and the
always-`null` enrichment placeholders other than `linkedin`) are omitted:
no verified operation reads them. -/
structure ProductData where
  name : String
  description : String
  category : String
  publishedAt : Nat
  phLink : String
  originalLink : String
  makerName : Option String
  linkedin : Option String := none
  deriving DecidableEq

/-- `extractProductData`: reject items missing a truthy title or link;
normalize the link; pick the description from `content`, `description`,
`rawDescription` in order; pick the maker from `creator`, `author`, or a
pattern search over the description; reject items whose cleaned title is
shorter than 3 characters. -/
def extractProductData (item : FeedItem) (category : String) (now : Nat) : Option ProductData :=
  if strTruthy item.title && strTruthy item.link then
    let title := item.title.getD ""
    let link := item.link.getD ""
    let normalizedLink := normalizeLink link
    let description :=
      if strTruthy item.content then item.content.getD ""
      else if strTruthy item.description then item.description.getD ""
      else if strTruthy item.rawDescription then item.rawDescription.getD ""
      else ""
    let makerRaw : Option String :=
      if strTruthy item.creator then item.creator
      else if strTruthy item.author then item.author
      else if description ≠ "" then extractMakerFromContent description
      else none
    let makerName : Option String :=
      match jsOrNull makerRaw with
      | some m => some (cleanMakerName m)
      | none => none
    let name := cleanTitle title
    if name.length < 3 then none
    else
      some { name := name,
             description := cleanDescription description,
             category := category,
             publishedAt := item.pubDate.getD now,
             phLink := normalizedLink,
             originalLink := link,
             makerName := makerName,
             linkedin := none }
  else none

end RSS

namespace DbSvc

/-! Embedding of `DatabaseService` (`server/services/dbService.js`).
`getItem` / `setItem` route keys by prefix to disjoint columns of the stored
JSON document (`products` + `productList`, `cache`, `schedule`, `misc`), so
each verified operation acts on its own projection of the store.  `Db` below
is the record-keeping projection (`products`, `productList`). -/

/-- A discovered listing as created by `saveProduct`.  The numeric and
array-valued enrichment fields (`phUpvotes`, `phVotes`, `phDayRank`,
`phTopics`, `companyWebsite`, `companyInfo`, `launchDate`, `accelerator`,
`phGithub`, `thumbnail`) are not read by any verified operation and are
omitted.  `sheetsSynced` is the extra field spread in by the approval route
(distinct from `syncedToSheets`). -/
structure Product where
  id : String
  name : String
  description : String
  category : String
  publishedAt : Nat
  phLink : String
  makerName : Option String
  linkedin : Option String
  status : String
  syncedToSheets : Bool
  sheetsSynced : Option Bool := none
  createdAt : Nat
  updatedAt : Nat
  deriving DecidableEq

/-- The `products` object (keyed by id) and the `productList` id array. -/
structure Db where
  products : List (String × Product)
  productList : List String
  deriving DecidableEq

/-- `normalizeProductHuntLink`, textually identical to the RSS service's
`normalizeLink`. -/
def normalizeProductHuntLink (link : String) : String := normalizeLink link

/-- `findProductByLink`: with an empty link return `null`; otherwise scan the
id list in order, skip missing products, and return the first product whose
normalized link equals the normalized query link. -/
def findProductByLink (db : Db) (phLink : String) : Option Product :=
  if phLink = "" then none
  else
    let normalizedLink := normalizeProductHuntLink phLink
    (db.productList.filterMap (fun id => lookupKV db.products id)).find?
      (fun product => normalizeProductHuntLink product.phLink == normalizedLink)

/-- `addToProductList`: append the id if it is not already present. -/
def addToProductList (db : Db) (productId : String) : Db :=
  if db.productList.contains productId then db
  else { db with productList := db.productList ++ [productId] }

/-- `saveProduct`: if a product with the same normalized link exists, return
it unchanged (whether rejected or not); otherwise create a fresh `pending`
record, store it under `product:id`, and append its id to the list.
`uuidv4()` and the two `new Date()` reads are the `newId` / `now` params. -/
def saveProduct (db : Db) (productData : RSS.ProductData) (newId : String) (now : Nat) :
    Product × Db :=
  match findProductByLink db productData.phLink with
  | some existingProduct => (existingProduct, db)
  | none =>
    let product : Product :=
      { id := newId,
        name := productData.name,
        description := productData.description,
        category := productData.category,
        publishedAt := productData.publishedAt,
        phLink := productData.phLink,
        makerName := jsOrNull productData.makerName,
        linkedin := jsOrNull productData.linkedin,
        status := "pending",
        syncedToSheets := false,
        sheetsSynced := none,
        createdAt := now,
        updatedAt := now }
    let db1 : Db := { db with products := setKV db.products newId product }
    let db2 := addToProductList db1 newId
    (product, db2)

/-- `updateProductFields`: look the product up; on success spread the update
over it (modelled by the function `fields`), stamp `updatedAt`, and store it
back. -/
def updateProductFields (db : Db) (productId : String) (fields : Product → Product) (now : Nat) :
    Option Product × Db :=
  match lookupKV db.products productId with
  | none => (none, db)
  | some product =>
    let updated := { fields product with updatedAt := now }
    (some updated, { db with products := setKV db.products productId updated })

/-! `getKeysByPattern` operates on the raw stored document; only the key sets
of the four columns matter to it, so the value type is a parameter. -/

/-- The raw stored JSON document as read by `getKeysByPattern`. -/
structure RawStore (V : Type) where
  productList : List String
  cache : List (String × V)
  schedule : List (String × V)
  misc : List (String × V)

/-- Glob match with `*` expanded to `.*` and the anchors `^`/`$` added, as in
`new RegExp("^" + pattern.replace(/\*/g, ".*") + "$")`; an unescaped `.` in
the pattern matches any character.  Other regex metacharacters do not occur
in the patterns this repository builds. -/
def globMatch : List Char → List Char → Bool
  | [], [] => true
  | [], _ :: _ => false
  | p :: ps, ks =>
    if p = '*' then
      globMatch ps ks ||
        (match ks with
         | [] => false
         | _ :: ks2 => globMatch ('*' :: ps) ks2)
    else
      match ks with
      | [] => false
      | k :: ks2 => (p == '.' || p == k) && globMatch ps ks2
termination_by ps ks => (ps.length, ks.length)

/-- `matchPattern`: exact comparison when the pattern has no `*`, otherwise
the anchored regex above. -/
def matchPattern (key pat : String) : Bool :=
  if !(pat.toList.contains '*') then key == pat
  else globMatch pat.toList key.toList

/-- The body of `getKeysByPattern` before its `try/catch`.  The branch
condition for the cache column is
`pattern.startsWith("linkedin_cache:") || key.startsWith("ph_enrichment_cache:")`,
where `key` is an undeclared identifier: whenever the first disjunct is
false, evaluating the second raises `ReferenceError: key is not defined`,
so the `schedule:` and miscellaneous branches of the source are unreachable. -/
def getKeysByPatternE {V : Type} (store : RawStore V) (pat : String) :
    Except String (List String) :=
  if jsStartsWith pat "product:" then
    .ok (if pat == "product:*" then store.productList.map (fun id => "product:" ++ id) else [])
  else if jsStartsWith pat "linkedin_cache:" then
    .ok ((store.cache.map Prod.fst).filter (fun key => matchPattern key pat))
  else
    .error "ReferenceError: key is not defined"

/-- `getKeysByPattern`: the surrounding `catch` turns any error into `[]`. -/
def getKeysByPattern {V : Type} (store : RawStore V) (pat : String) : List String :=
  match getKeysByPatternE store pat with
  | .ok keys => keys
  | .error _ => []

end DbSvc

namespace CacheSvc

/-! Embedding of `CacheService` (`server/services/cacheService.js`): the
two-tier cache.  The payload type is a parameter (`linkedin_cache:` entries
hold a nullable URL, `ph_enrichment_cache:` entries hold an object).  The
persistent tier is the `cache` column of the record store, reached through
`dbService.getItem` / `setItem` / `deleteItem`, whose cache-prefix branches
are plain object reads/writes/deletes modelled by `lookupKV` / `setKV` /
`delKV`. -/

/-- Constructor-read environment configuration: `CACHE_EXPIRY_HOURS`
converted to milliseconds, and `MAX_CACHE_SIZE`. -/
structure CacheConfig where
  cacheExpiry : Nat
  maxInMemorySize : Nat

/-- A stored cache entry `{ data, timestamp }`. -/
structure Cached (α : Type) where
  data : α
  timestamp : Nat
  deriving DecidableEq

/-- The two tiers: the in-process `Map` (insertion-ordered) and the
persistent `cache` column. -/
structure CacheState (α : Type) where
  memory : List (String × Cached α)
  db : List (String × Cached α)
  deriving DecidableEq

/-- `isExpired`: strictly older than the configured service-wide expiry. -/
def isExpired (cfg : CacheConfig) (now timestamp : Nat) : Bool :=
  decide (now - timestamp > cfg.cacheExpiry)

/-- `addToMemoryCache`: when the map is at capacity, evict the first
(oldest-inserted) entry, then set the key. -/
def addToMemoryCache {α : Type} (cfg : CacheConfig) (memory : List (String × Cached α))
    (key : String) (data : α) (timestamp : Nat) : List (String × Cached α) :=
  let memory1 := if memory.length ≥ cfg.maxInMemorySize then memory.drop 1 else memory
  setKV memory1 key ⟨data, timestamp⟩

/-- The persistent-tier half of `getItem`: on a fresh hit promote the entry
into the volatile tier; on an expired hit delete it from the store. -/
def getItemDbTier {α : Type} (cfg : CacheConfig) (st : CacheState α) (now : Nat)
    (key : String) : Option α × CacheState α :=
  match lookupKV st.db key with
  | some cached =>
    if !(isExpired cfg now cached.timestamp) then
      (some cached.data,
       { st with memory := addToMemoryCache cfg st.memory key cached.data cached.timestamp })
    else
      (none, { st with db := delKV st.db key })
  | none => (none, st)

/-- `getItem`: volatile tier first (deleting an expired volatile entry and
falling through), then the persistent tier.  A miss is `none`. -/
def getItem {α : Type} (cfg : CacheConfig) (st : CacheState α) (now : Nat)
    (key : String) : Option α × CacheState α :=
  match lookupKV st.memory key with
  | some cached =>
    if !(isExpired cfg now cached.timestamp) then (some cached.data, st)
    else
      getItemDbTier cfg { st with memory := delKV st.memory key } now key
  | none => getItemDbTier cfg st now key

/-- `setItem`: write-through to both tiers with a fresh timestamp.  Note the
`expiryMs` argument is accepted but never read — entry expiry is decided by
`isExpired` against the service-wide `cacheExpiry` alone. -/
def setItem {α : Type} (cfg : CacheConfig) (st : CacheState α) (now : Nat)
    (key : String) (data : α) (expiryMs : Nat) : CacheState α :=
  let timestamp := now
  { memory := addToMemoryCache cfg st.memory key data timestamp,
    db := setKV st.db key ⟨data, timestamp⟩ }

/-- `cleanKey`: lowercase, keep only word characters, whitespace, `-` and `.`
(`replace(/[^\w\s\-\.]/g, "")`), collapse whitespace runs to `_`, trim,
truncate to 50. -/
def cleanKey (key : String) : String :=
  let l := (lowerStr key).toList
  let l := l.filter (fun c => c.isAlphanum || c == '_' || isWs c || c == '-' || c == '.')
  let l := collapseWsWith '_' false l
  ((trimList l).take 50).asString

/-- `getLinkedInCache`: read `linkedin_cache:<cleanKey name>`.  The stored
payload is itself nullable (a negative lookup stores `null`), and the JS
return value collapses a stored-`null` hit and a miss to the same `null`;
the flattening below is that collapse. -/
def getLinkedInCache (cfg : CacheConfig) (st : CacheState (Option String)) (now : Nat)
    (makerName : String) : Option String × CacheState (Option String) :=
  let key := "linkedin_cache:" ++ cleanKey makerName
  let res := getItem cfg st now key
  (match res.1 with
   | some d => d
   | none => none, res.2)

/-- `setLinkedInCache`: store the (possibly null) URL under the cleaned key;
the expiry argument passed along is the service-wide expiry. -/
def setLinkedInCache (cfg : CacheConfig) (st : CacheState (Option String)) (now : Nat)
    (makerName : String) (linkedinUrl : Option String) : CacheState (Option String) :=
  setItem cfg st now ("linkedin_cache:" ++ cleanKey makerName) linkedinUrl cfg.cacheExpiry

end CacheSvc

namespace LISvc

/-! Embedding of `LinkedInEnrichmentService`
(`server/services/linkedinEnrichmentService.js`): the profile-lookup worker. -/

/-- One organic search result `{ title, snippet, link }`. -/
structure SearchResult where
  title : String
  snippet : String
  link : String
  deriving DecidableEq

/-- `cleanMakerName` (LinkedIn variant): `replace(/[^\w\s\-\.]/g, "")`,
collapse whitespace to single spaces, trim, truncate to 50. -/
def cleanMakerName (makerName : String) : String :=
  let l := makerName.toList.filter (fun c => c.isAlphanum || c == '_' || isWs c || c == '-' || c == '.')
  let l := collapseWsWith ' ' false l
  ((trimList l).take 50).asString

/-- The per-candidate score of `findBestLinkedInMatch`: +10 when the
lowercased raw maker name occurs in the lowercased title, then +2 / +1 per
whitespace-token of the lowercased raw name longer than 2 characters found
in the title / snippet. -/
def scoreResult (makerName : String) (result : SearchResult) : Nat :=
  let title := lowerStr result.title
  let snippet := lowerStr result.snippet
  let makerNameLower := lowerStr makerName
  let base := if containsSub title makerNameLower then 10 else 0
  (splitWs makerNameLower).foldl
    (fun score word =>
      if word.length > 2 then
        score + (if containsSub title word then 2 else 0)
              + (if containsSub snippet word then 1 else 0)
      else score)
    base

/-- Models `scoredResults.sort((a, b) => b.score - a.score)` (a stable
descending sort) followed by `scoredResults[0]`: the first candidate
attaining the maximal score, paired with that score. -/
def bestScored (makerName : String) : List SearchResult → Option (SearchResult × Nat)
  | [] => none
  | r :: rest =>
    match bestScored makerName rest with
    | none => some (r, scoreResult makerName r)
    | some b =>
      if b.2 > scoreResult makerName r then some b else some (r, scoreResult makerName r)

/-- `findBestLinkedInMatch`: keep only results whose link contains
`linkedin.com/in/`, score them, and return the top-scored link when its
score is positive; otherwise `null`. -/
def findBestLinkedInMatch (results : List SearchResult) (makerName : String) : Option String :=
  if results.isEmpty then none
  else
    let linkedinResults := results.filter (fun r => containsSub r.link "linkedin.com/in/")
    if linkedinResults.isEmpty then none
    else
      match bestScored makerName linkedinResults with
      | some b => if b.2 > 0 then some b.1.link else none
      | none => none

/-- The claim's scoring, following the spec's words instead of the source:
the CLEANED maker name (via `cleanMakerName`) is the string whose verbatim
occurrence in the title is worth +10 and whose tokens are matched. -/
def scoreResultSpec (makerName : String) (result : SearchResult) : Nat :=
  let cleaned := lowerStr (cleanMakerName makerName)
  let title := lowerStr result.title
  let snippet := lowerStr result.snippet
  let base := if containsSub title cleaned then 10 else 0
  (splitWs cleaned).foldl
    (fun score word =>
      if word.length > 2 then
        score + (if containsSub title word then 2 else 0)
              + (if containsSub snippet word then 1 else 0)
      else score)
    base

/-- Spec-side counterpart of `bestScored`, using `scoreResultSpec`. -/
def bestScoredSpec (makerName : String) : List SearchResult → Option (SearchResult × Nat)
  | [] => none
  | r :: rest =>
    match bestScoredSpec makerName rest with
    | none => some (r, scoreResultSpec makerName r)
    | some b =>
      if b.2 > scoreResultSpec makerName r then some b else some (r, scoreResultSpec makerName r)

/-- Spec-side counterpart of `findBestLinkedInMatch`, to be compared with the
source definition. -/
def findBestLinkedInMatchSpec (results : List SearchResult) (makerName : String) : Option String :=
  if results.isEmpty then none
  else
    let linkedinResults := results.filter (fun r => containsSub r.link "linkedin.com/in/")
    if linkedinResults.isEmpty then none
    else
      match bestScoredSpec makerName linkedinResults with
      | some b => if b.2 > 0 then some b.1.link else none
      | none => none

/-- `findLinkedInProfile`: skip blank names; consult the LinkedIn cache; on a
(non-null) hit return it with no external call; otherwise perform one
external search (`search` is the network oracle returning the ranked organic
results for the scoped query), pick the best match, cache the outcome —
positive or null — and return it.  The third component counts external
search calls.  The error path of the source also caches `null`, so a total
oracle loses no behaviour. -/
def findLinkedInProfile (cfg : CacheSvc.CacheConfig) (st : CacheSvc.CacheState (Option String))
    (now : Nat) (search : String → List SearchResult) (makerName : String) :
    Option String × CacheSvc.CacheState (Option String) × Nat :=
  if trimStr makerName = "" then (none, st, 0)
  else
    let c := CacheSvc.getLinkedInCache cfg st now makerName
    match c.1 with
    | some url => (some url, c.2, 0)
    | none =>
      let organic := search makerName
      let linkedinUrl := findBestLinkedInMatch organic makerName
      let st2 := CacheSvc.setLinkedInCache cfg c.2 now makerName linkedinUrl
      (linkedinUrl, st2, 1)

end LISvc

namespace SchedSvc

/-! Embedding of `ScheduleService` (`server/services/scheduleService.js`):
the interval run gate. -/

/-- A schedule mark.  The free-form `results` summary is not read by any
verified operation and is omitted. -/
structure RunData where
  jobName : String
  timestamp : Nat
  recordedAt : Nat
  deriving DecidableEq

/-- `CRON_INTERVAL_HOURS` converted to milliseconds (the source stores hours,
possibly fractional, and multiplies by `60 * 60 * 1000` before comparing). -/
structure SchedConfig where
  defaultIntervalMs : Nat

/-- The in-memory `Map` (keyed by job name) and the `schedule` column of the
record store (keyed by `schedule:<jobName>`). -/
structure SchedState where
  inMemorySchedule : List (String × RunData)
  db : List (String × RunData)
  deriving DecidableEq

/-- `getLastRun`: in-memory map first; on a persistent hit promote it into
the map. -/
def getLastRun (st : SchedState) (jobName : String) : Option RunData × SchedState :=
  match lookupKV st.inMemorySchedule jobName with
  | some r => (some r, st)
  | none =>
    match lookupKV st.db ("schedule:" ++ jobName) with
    | some lastRun =>
      (some lastRun, { st with inMemorySchedule := setKV st.inMemorySchedule jobName lastRun })
    | none => (none, st)

/-- The verdict of `shouldJobRun`.  The source also reports a rounded elapsed
time and a next-allowed timestamp; those are presentation only. -/
structure ShouldRunInfo where
  shouldRun : Bool
  reason : String
  lastRun : Option RunData
  deriving DecidableEq

/-- `intervalHours || this.defaultIntervalHours`, already in milliseconds:
a missing or zero override selects the default (JS `||` treats `0` as
falsy). -/
def intervalMsOf (cfg : SchedConfig) (intervalOverride : Option Nat) : Nat :=
  match intervalOverride with
  | some ms => if ms = 0 then cfg.defaultIntervalMs else ms
  | none => cfg.defaultIntervalMs

/-- `shouldJobRun`: runnable with no mark; otherwise runnable exactly when
the elapsed time since the mark's timestamp has reached the interval.  The
fail-open catch branch concerns store I/O failure and is outside this pure
model. -/
def shouldJobRun (cfg : SchedConfig) (st : SchedState) (now : Nat) (jobName : String)
    (intervalOverride : Option Nat) : ShouldRunInfo × SchedState :=
  let intervalMs := intervalMsOf cfg intervalOverride
  match getLastRun st jobName with
  | (none, st1) =>
    ({ shouldRun := true, reason := "Job has never been run", lastRun := none }, st1)
  | (some lastRun, st1) =>
    let timeSinceLastRun := now - lastRun.timestamp
    if timeSinceLastRun ≥ intervalMs then
      ({ shouldRun := true, reason := "Interval has passed", lastRun := some lastRun }, st1)
    else
      ({ shouldRun := false, reason := "Job ran too recently", lastRun := some lastRun }, st1)

/-- `recordJobRun`: unconditionally overwrite the mark in both the store and
the in-memory map with the current timestamp. -/
def recordJobRun (st : SchedState) (now : Nat) (jobName : String) : SchedState :=
  let runData : RunData := { jobName := jobName, timestamp := now, recordedAt := now }
  { inMemorySchedule := setKV st.inMemorySchedule jobName runData,
    db := setKV st.db ("schedule:" ++ jobName) runData }

end SchedSvc

namespace Sheets

/-! Embedding of `GoogleSheetsService` (`server/services/googleSheetsService.js`):
the sink reconciler.  A sink that is unconfigured or unreachable is the
`none` case (its `initialize()` returns `false`, which `addApprovedMaker`
surfaces as `false` without throwing). -/

/-- One sheet row in column order `A:F`
(Date Approved, Maker Name, LinkedIn, Product Name, Category, PH Link). -/
structure SheetRow where
  dateApproved : String
  makerName : String
  linkedin : String
  productName : String
  category : String
  phLink : String
  deriving DecidableEq

/-- The sink tab: its data rows (the header row is implicit; `slice(1)` in
the source skips it). -/
structure Sheet where
  rows : List SheetRow
  deriving DecidableEq

/-- `checkForDuplicate`: no rows means no duplicate; otherwise a row is a
duplicate when product name AND maker name both match
(`existingProductName === productName && existingMakerName === makerName`,
where a `null` maker never equals a stored string), or when both links are
non-empty and normalize to the same link. -/
def checkForDuplicate (sheet : Sheet) (productName : String) (makerName : Option String)
    (phLink : String) : Bool :=
  if sheet.rows.isEmpty then false
  else
    let normalizedLink : Option String :=
      if phLink ≠ "" then some (normalizeLink phLink) else none
    sheet.rows.any (fun row =>
      let nameMatch :=
        row.productName == productName &&
          (match makerName with
           | some m => row.makerName == m
           | none => false)
      let linkMatch :=
        match normalizedLink with
        | some nl => !(row.phLink == "") && (normalizeLink row.phLink == nl)
        | none => false
      nameMatch || linkMatch)

/-- `addApprovedMaker`: report `false` when the sink is unavailable; treat a
detected duplicate as success without appending; otherwise append one row
built from the record, substituting `Unknown` for a missing maker and the
empty string for a missing LinkedIn URL (`new Date()` date string is the
`today` parameter). -/
def addApprovedMaker (sink : Option Sheet) (productData : DbSvc.Product) (today : String) :
    Bool × Option Sheet :=
  match sink with
  | none => (false, none)
  | some sheet =>
    if checkForDuplicate sheet productData.name productData.makerName productData.phLink then
      (true, some sheet)
    else
      let rowData : SheetRow :=
        { dateApproved := today,
          makerName := jsOrStr productData.makerName "Unknown",
          linkedin := jsOrStr productData.linkedin "",
          productName := productData.name,
          category := productData.category,
          phLink := productData.phLink }
      (true, some { rows := sheet.rows ++ [rowData] })

end Sheets

namespace App

/-! Embedding of `POST /api/makers/:id/approve` (`server/app.js`). -/

/-- The `sheets` object of the success envelope. -/
structure SheetsSyncResult where
  synced : Bool
  error : Option String
  deriving DecidableEq

/-- The route's response: 404 (`success: false`, maker not found), 500
(`success: false`, status update failed), or 200
(`success: true, message: "Maker approved successfully", sheets: ...`). -/
inductive ApproveResponse where
  | notFound
  | serverError
  | approved (sheets : SheetsSyncResult)
  deriving DecidableEq

/-- The `{ status: "approved" }` spread of the route. -/
def setStatusApproved (p : DbSvc.Product) : DbSvc.Product := { p with status := "approved" }

/-- The `{ sheetsSynced: true }` spread of the route. -/
def setSheetsSynced (p : DbSvc.Product) : DbSvc.Product := { p with sheetsSynced := some true }

/-- The approval route: read the product; 404 when absent; set its status to
`approved` locally; then attempt the sink append, and report
`{synced: false, error: "Google Sheets service not available"}` when the
sink declined, without touching the already-committed local approval.
(The `catch` around the append, which stores a thrown message in
`sheets.error`, concerns an initialized-but-failing remote sink and is
outside this model; an unconfigured or unreachable sink returns `false`.) -/
def approveMaker (db : DbSvc.Db) (sink : Option Sheets.Sheet) (id : String) (now : Nat)
    (today : String) : ApproveResponse × DbSvc.Db × Option Sheets.Sheet :=
  match lookupKV db.products id with
  | none => (.notFound, db, sink)
  | some product =>
    match DbSvc.updateProductFields db id setStatusApproved now with
    | (none, db1) => (.serverError, db1, sink)
    | (some _, db1) =>
      let sync := Sheets.addApprovedMaker sink product today
      if sync.1 then
        let upd := DbSvc.updateProductFields db1 id setSheetsSynced now
        (.approved { synced := true, error := none }, upd.2, sync.2)
      else
        (.approved { synced := false, error := some "Google Sheets service not available" },
         db1, sync.2)

end App

/-! Association-list facts used throughout the proofs. -/

theorem lookupKV_setKV_self {α : Type} (l : List (String × α)) (k : String) (v : α) :
    lookupKV (setKV l k v) k = some v := by
  induction l with
  | nil => simp [setKV, lookupKV]
  | cons e rest ih =>
    by_cases h : e.1 = k
    · simp [setKV, h, lookupKV]
    · simp [setKV, h, lookupKV, ih]

theorem lookupKV_setKV_ne {α : Type} (l : List (String × α)) (k k2 : String) (v : α)
    (h : k2 ≠ k) : lookupKV (setKV l k v) k2 = lookupKV l k2 := by
  induction l with
  | nil => simp [setKV, lookupKV, Ne.symm h]
  | cons e rest ih =>
    by_cases he : e.1 = k
    · simp [setKV, lookupKV, he, Ne.symm h]
    · simp [setKV, he, lookupKV, ih]

/-! ### Claim C10 — the `ph_enrichment_cache:` branch of `getKeysByPattern` -/

/-- C10: for every key pattern beginning with `ph_enrichment_cache:`, the
record store's `getKeysByPattern` returns the empty list regardless of which
matching keys are stored: the branch guard evaluates the undeclared
identifier `key`, the resulting `ReferenceError` is caught, and the catch
converts it to `[]` — so sweep operations over that namespace remove
nothing. -/
theorem getKeysByPattern_ph_enrichment_empty {V : Type} (store : DbSvc.RawStore V)
    (pat : String) (h : jsStartsWith pat "ph_enrichment_cache:" = true) :
    DbSvc.getKeysByPatternE store pat = .error "ReferenceError: key is not defined" ∧
    DbSvc.getKeysByPattern store pat = [] := by
  unfold jsStartsWith at h
  obtain ⟨t, ht⟩ := List.isPrefixOf_iff_prefix.mp h
  have h1 : jsStartsWith pat "product:" = false := by
    unfold jsStartsWith
    rw [← ht]
    rfl
  have h2 : jsStartsWith pat "linkedin_cache:" = false := by
    unfold jsStartsWith
    rw [← ht]
    rfl
  refine ⟨?_, ?_⟩
  · simp [DbSvc.getKeysByPatternE, h1, h2]
  · simp [DbSvc.getKeysByPattern, DbSvc.getKeysByPatternE, h1, h2]

/-- Witness for C10: a store that does hold a `ph_enrichment_cache:` entry
still yields the empty key list for the matching pattern. -/
theorem getKeysByPattern_ph_enrichment_empty_witness :
    DbSvc.getKeysByPatternE
        ({ productList := [], cache := [("ph_enrichment_cache:42", 0)], schedule := [],
           misc := [] } : DbSvc.RawStore Nat) "ph_enrichment_cache:*" =
      .error "ReferenceError: key is not defined" ∧
    DbSvc.getKeysByPattern
        ({ productList := [], cache := [("ph_enrichment_cache:42", 0)], schedule := [],
           misc := [] } : DbSvc.RawStore Nat) "ph_enrichment_cache:*" = [] :=
  getKeysByPattern_ph_enrichment_empty _ _ (by decide)

/-! ### Claim C3 — rejection sticks -/

/-- C3: admitting a link whose existing record has status `rejected` is a
no-op: `saveProduct` returns the existing rejected record and leaves the
store untouched — no new record, no status change, no field change.  (The
source takes this branch for any existing record; the `rejected` hypothesis
is the case the claim talks about.) -/
theorem rejection_sticks (db : DbSvc.Db) (pd : RSS.ProductData) (newId : String) (now : Nat)
    (p : DbSvc.Product) (hfound : DbSvc.findProductByLink db pd.phLink = some p)
    (hrej : p.status = "rejected") :
    DbSvc.saveProduct db pd newId now = (p, db) := by
  simp [DbSvc.saveProduct, hfound]

/-- Witness for C3: a store holding one rejected record for the link; the
admission returns it unchanged. -/
theorem rejection_sticks_witness :
    DbSvc.saveProduct
        ({ products :=
             [("1", { id := "1", name := "Acme", description := "", category := "ai",
                      publishedAt := 0, phLink := "https://x.com/posts/acme",
                      makerName := some "Jane", linkedin := none, status := "rejected",
                      syncedToSheets := false, createdAt := 0, updatedAt := 0 })],
           productList := ["1"] } : DbSvc.Db)
        ({ name := "Acme", description := "", category := "ai", publishedAt := 3,
           phLink := "https://x.com/posts/acme", originalLink := "",
           makerName := some "Jane" } : RSS.ProductData) "id9" 7 =
      ({ id := "1", name := "Acme", description := "", category := "ai", publishedAt := 0,
         phLink := "https://x.com/posts/acme", makerName := some "Jane", linkedin := none,
         status := "rejected", syncedToSheets := false, createdAt := 0, updatedAt := 0 },
       { products :=
           [("1", { id := "1", name := "Acme", description := "", category := "ai",
                    publishedAt := 0, phLink := "https://x.com/posts/acme",
                    makerName := some "Jane", linkedin := none, status := "rejected",
                    syncedToSheets := false, createdAt := 0, updatedAt := 0 })],
         productList := ["1"] }) :=
  rejection_sticks _ _ _ _ _ (by decide) (by decide)

/-! ### Claim C4 — cache TTL -/

/-- C4 counterexample: `set(k, v, ttl)` with `ttl = 5` followed by `get(k)`
at elapsed time `10 > ttl` still returns `v` (the claim asserts it returns
absent once `ttl` has elapsed): the `expiryMs` argument of `setItem` is
never consulted. -/
theorem cache_ttl_counterexample :
    5 < 10 - 0 ∧
    (CacheSvc.getItem { cacheExpiry := 86400000, maxInMemorySize := 1000 }
        (CacheSvc.setItem { cacheExpiry := 86400000, maxInMemorySize := 1000 }
          ({ memory := [], db := [] } : CacheSvc.CacheState String) 0 "k" "v" 5)
        10 "k").1 = some "v" := by
  decide

/-- C4 amended: `set(k, v, ttl)` followed by `get(k)` returns `v` while the
elapsed time is within the service-wide configured expiry
(`CACHE_EXPIRY_HOURS`), and returns absent once that configured expiry has
strictly elapsed; the `ttl` argument passed to `set` is ignored. -/
theorem cache_ttl_amended {α : Type} (cfg : CacheSvc.CacheConfig) (st : CacheSvc.CacheState α)
    (k : String) (v : α) (ttl t t2 : Nat) :
    (t2 - t ≤ cfg.cacheExpiry →
      (CacheSvc.getItem cfg (CacheSvc.setItem cfg st t k v ttl) t2 k).1 = some v) ∧
    (cfg.cacheExpiry < t2 - t →
      (CacheSvc.getItem cfg (CacheSvc.setItem cfg st t k v ttl) t2 k).1 = none) := by
  have hmem :
      lookupKV (CacheSvc.setItem cfg st t k v ttl).memory k = some ⟨v, t⟩ := by
    simp [CacheSvc.setItem, CacheSvc.addToMemoryCache, lookupKV_setKV_self]
  have hdb : lookupKV (CacheSvc.setItem cfg st t k v ttl).db k = some ⟨v, t⟩ := by
    simp [CacheSvc.setItem, lookupKV_setKV_self]
  constructor
  · intro h
    have hexp : CacheSvc.isExpired cfg t2 t = false := by
      simp [CacheSvc.isExpired]
      omega
    simp [CacheSvc.getItem, hmem, hexp]
  · intro h
    have hexp : CacheSvc.isExpired cfg t2 t = true := by
      simp [CacheSvc.isExpired]
      omega
    simp [CacheSvc.getItem, hmem, hexp, CacheSvc.getItemDbTier, hdb]

/-- Witness for C4 amended: within the configured expiry the value is
returned; strictly past it the entry is absent. -/
theorem cache_ttl_amended_witness :
    (1000 : Nat) - 0 ≤ 86400000 ∧
    (CacheSvc.getItem { cacheExpiry := 86400000, maxInMemorySize := 1000 }
        (CacheSvc.setItem { cacheExpiry := 86400000, maxInMemorySize := 1000 }
          ({ memory := [], db := [] } : CacheSvc.CacheState String) 0 "k" "v" 5)
        1000 "k").1 = some "v" ∧
    (86400000 : Nat) < 86400001 - 0 ∧
    (CacheSvc.getItem { cacheExpiry := 86400000, maxInMemorySize := 1000 }
        (CacheSvc.setItem { cacheExpiry := 86400000, maxInMemorySize := 1000 }
          ({ memory := [], db := [] } : CacheSvc.CacheState String) 0 "k" "v" 5)
        86400001 "k").1 = none :=
  ⟨by decide,
   (cache_ttl_amended _ _ "k" "v" 5 0 1000).1 (by decide),
   by decide,
   (cache_ttl_amended _ _ "k" "v" 5 0 86400001).2 (by decide)⟩

/-! ### Claim C5 — schedule gating -/

/-- C5: per job name, `shouldJobRun` permits a run when no mark exists;
after `recordJobRun` stamps a mark at time `t`, it refuses while the elapsed
time is below the configured minimum interval and permits again once the
elapsed time reaches the interval. -/
theorem schedule_gating (cfg : SchedSvc.SchedConfig) (st : SchedSvc.SchedState)
    (jobName : String) (o : Option Nat) :
    ((SchedSvc.getLastRun st jobName).1 = none →
      ∀ now, (SchedSvc.shouldJobRun cfg st now jobName o).1.shouldRun = true) ∧
    (∀ t now,
      (now - t < SchedSvc.intervalMsOf cfg o →
        (SchedSvc.shouldJobRun cfg (SchedSvc.recordJobRun st t jobName) now jobName
            o).1.shouldRun = false) ∧
      (SchedSvc.intervalMsOf cfg o ≤ now - t →
        (SchedSvc.shouldJobRun cfg (SchedSvc.recordJobRun st t jobName) now jobName
            o).1.shouldRun = true)) := by
  constructor
  · intro h now
    rcases hgl : SchedSvc.getLastRun st jobName with ⟨r, st1⟩
    rw [hgl] at h
    simp at h
    subst h
    simp [SchedSvc.shouldJobRun, hgl]
  · intro t now
    have hgl : SchedSvc.getLastRun (SchedSvc.recordJobRun st t jobName) jobName =
        (some { jobName := jobName, timestamp := t, recordedAt := t },
         SchedSvc.recordJobRun st t jobName) := by
      simp [SchedSvc.getLastRun, SchedSvc.recordJobRun, lookupKV_setKV_self]
    constructor
    · intro h
      have hc : ¬ (SchedSvc.intervalMsOf cfg o ≤ now - t) := by omega
      simp [SchedSvc.shouldJobRun, hgl, hc]
    · intro h
      have hc : SchedSvc.intervalMsOf cfg o ≤ now - t := h
      simp [SchedSvc.shouldJobRun, hgl, hc]

/-- Witness for C5: with a 180000 ms interval, a fresh state is runnable; a
mark at `t = 100` blocks at `now = 1000` and unblocks at `now = 180100`. -/
theorem schedule_gating_witness :
    (SchedSvc.shouldJobRun { defaultIntervalMs := 180000 }
        ({ inMemorySchedule := [], db := [] } : SchedSvc.SchedState) 0 "rss-fetch"
        none).1.shouldRun = true ∧
    (SchedSvc.shouldJobRun { defaultIntervalMs := 180000 }
        (SchedSvc.recordJobRun { inMemorySchedule := [], db := [] } 100 "rss-fetch") 1000
        "rss-fetch" none).1.shouldRun = false ∧
    (SchedSvc.shouldJobRun { defaultIntervalMs := 180000 }
        (SchedSvc.recordJobRun { inMemorySchedule := [], db := [] } 100 "rss-fetch") 180100
        "rss-fetch" none).1.shouldRun = true :=
  ⟨(schedule_gating { defaultIntervalMs := 180000 } { inMemorySchedule := [], db := [] }
      "rss-fetch" none).1 (by decide) 0,
   ((schedule_gating { defaultIntervalMs := 180000 } { inMemorySchedule := [], db := [] }
      "rss-fetch" none).2 100 1000).1 (by decide),
   ((schedule_gating { defaultIntervalMs := 180000 } { inMemorySchedule := [], db := [] }
      "rss-fetch" none).2 100 180100).2 (by decide)⟩

/-! ### Claim C2 — idempotent admission -/

theorem findProductByLink_after_save (db : DbSvc.Db) (pd : RSS.ProductData) (id1 : String)
    (t1 : Nat) (hlink : pd.phLink ≠ "")
    (hnone : DbSvc.findProductByLink db pd.phLink = none)
    (hfresh : db.productList.contains id1 = false) :
    DbSvc.findProductByLink (DbSvc.saveProduct db pd id1 t1).2 pd.phLink =
      some (DbSvc.saveProduct db pd id1 t1).1 := by
  have hnotmem : id1 ∉ db.productList := by simpa using hfresh
  simp only [DbSvc.saveProduct, hnone, DbSvc.addToProductList, hfresh, Bool.false_eq_true,
    if_false]
  simp only [DbSvc.findProductByLink, if_neg hlink] at hnone ⊢
  rw [List.filterMap_append]
  have hcong :
      (db.productList.filterMap fun id =>
        lookupKV (setKV db.products id1
          { id := id1, name := pd.name, description := pd.description, category := pd.category,
            publishedAt := pd.publishedAt, phLink := pd.phLink,
            makerName := jsOrNull pd.makerName, linkedin := jsOrNull pd.linkedin,
            status := "pending", syncedToSheets := false, sheetsSynced := none,
            createdAt := t1, updatedAt := t1 }) id) =
      db.productList.filterMap fun id => lookupKV db.products id :=
    List.filterMap_congr (fun a ha =>
      lookupKV_setKV_ne _ _ _ _ (fun he => hnotmem (he ▸ ha)))
  rw [hcong, List.find?_append, hnone]
  simp [List.filterMap_cons, lookupKV_setKV_self, List.find?]

/-- C2: for a normalized link not yet admitted, admitting it creates exactly
one record (one new id appended to the list), and a second admission of the
same data returns that first record unchanged with the store untouched — no
maker/description overwrite, no second id. -/
theorem idempotent_admission (db : DbSvc.Db) (pd : RSS.ProductData) (id1 id2 : String)
    (t1 t2 : Nat) (hlink : pd.phLink ≠ "")
    (hnone : DbSvc.findProductByLink db pd.phLink = none)
    (hfresh : db.productList.contains id1 = false) :
    (DbSvc.saveProduct db pd id1 t1).2.productList = db.productList ++ [id1] ∧
    DbSvc.saveProduct (DbSvc.saveProduct db pd id1 t1).2 pd id2 t2 =
      ((DbSvc.saveProduct db pd id1 t1).1, (DbSvc.saveProduct db pd id1 t1).2) := by
  have hnotmem : id1 ∉ db.productList := by simpa using hfresh
  constructor
  · simp [DbSvc.saveProduct, hnone, DbSvc.addToProductList, hnotmem]
  · rw [DbSvc.saveProduct, findProductByLink_after_save db pd id1 t1 hlink hnone hfresh]

/-- Witness for C2: two admissions of the same link into an empty store. -/
theorem idempotent_admission_witness :
    (DbSvc.saveProduct ({ products := [], productList := [] } : DbSvc.Db)
        ({ name := "Acme Tool", description := "", category := "g", publishedAt := 0,
           phLink := "https://x.com/posts/acme", originalLink := "",
           makerName := some "Jane Doe" } : RSS.ProductData) "id1" 5).2.productList =
      [] ++ ["id1"] ∧
    DbSvc.saveProduct
        (DbSvc.saveProduct ({ products := [], productList := [] } : DbSvc.Db)
          ({ name := "Acme Tool", description := "", category := "g", publishedAt := 0,
             phLink := "https://x.com/posts/acme", originalLink := "",
             makerName := some "Jane Doe" } : RSS.ProductData) "id1" 5).2
        ({ name := "Acme Tool", description := "", category := "g", publishedAt := 0,
           phLink := "https://x.com/posts/acme", originalLink := "",
           makerName := some "Jane Doe" } : RSS.ProductData) "id2" 9 =
      ((DbSvc.saveProduct ({ products := [], productList := [] } : DbSvc.Db)
          ({ name := "Acme Tool", description := "", category := "g", publishedAt := 0,
             phLink := "https://x.com/posts/acme", originalLink := "",
             makerName := some "Jane Doe" } : RSS.ProductData) "id1" 5).1,
       (DbSvc.saveProduct ({ products := [], productList := [] } : DbSvc.Db)
          ({ name := "Acme Tool", description := "", category := "g", publishedAt := 0,
             phLink := "https://x.com/posts/acme", originalLink := "",
             makerName := some "Jane Doe" } : RSS.ProductData) "id1" 5).2) :=
  idempotent_admission _ _ "id1" "id2" 5 9 (by decide) (by decide) (by decide)

/-! ### Claim C1 — negative caching of profile lookups -/

/-- C1 (code bug): the profile lookup for a maker whose search yields no
match stores the negative outcome (`null` under the cleaned cache key), but
because the cache read returns the stored payload — `null` for a negative
entry, `null` for a miss — the worker cannot tell the cached negative from
an absent entry, and a repeated lookup 1 second later performs a second
external search call (third and last component `= 1`; the claim requires
`0`), despite the intent documented in the source
(`Cache null result to avoid repeated failed searches`). -/
theorem negative_cache_not_honored :
    (LISvc.findLinkedInProfile { cacheExpiry := 86400000, maxInMemorySize := 1000 }
        ({ memory := [], db := [] } : CacheSvc.CacheState (Option String)) 0
        (fun _ => []) "Jane Doe").1 = none ∧
    (LISvc.findLinkedInProfile { cacheExpiry := 86400000, maxInMemorySize := 1000 }
        ({ memory := [], db := [] } : CacheSvc.CacheState (Option String)) 0
        (fun _ => []) "Jane Doe").2.2 = 1 ∧
    lookupKV
        (LISvc.findLinkedInProfile { cacheExpiry := 86400000, maxInMemorySize := 1000 }
          ({ memory := [], db := [] } : CacheSvc.CacheState (Option String)) 0
          (fun _ => []) "Jane Doe").2.1.db "linkedin_cache:jane_doe" =
      some { data := none, timestamp := 0 } ∧
    (LISvc.findLinkedInProfile { cacheExpiry := 86400000, maxInMemorySize := 1000 }
        (LISvc.findLinkedInProfile { cacheExpiry := 86400000, maxInMemorySize := 1000 }
          ({ memory := [], db := [] } : CacheSvc.CacheState (Option String)) 0
          (fun _ => []) "Jane Doe").2.1 1000 (fun _ => []) "Jane Doe").2.2 = 1 := by
  decide

/-! ### Claim C7 — approval is local-first -/

/-- C7: approving an existing record while the sink is unconfigured or
unreachable (no initialized sink) yields the success envelope with
`sheets = { synced := false, error := "Google Sheets service not available" }`
— the sink reported unavailability by returning `false`, not by throwing —
and the record's stored status is `approved` regardless of the sink
outcome. -/
theorem approve_local_first (db : DbSvc.Db) (id : String) (now : Nat) (today : String)
    (p : DbSvc.Product) (h : lookupKV db.products id = some p) :
    (App.approveMaker db none id now today).1 =
      .approved { synced := false, error := some "Google Sheets service not available" } ∧
    lookupKV (App.approveMaker db none id now today).2.1.products id =
      some { App.setStatusApproved p with updatedAt := now } ∧
    ({ App.setStatusApproved p with updatedAt := now } : DbSvc.Product).status =
      "approved" := by
  refine ⟨?_, ?_, rfl⟩
  · simp [App.approveMaker, DbSvc.updateProductFields, h, Sheets.addApprovedMaker]
  · simp [App.approveMaker, DbSvc.updateProductFields, h, Sheets.addApprovedMaker,
      lookupKV_setKV_self]

/-- Witness for C7: a one-record store, no sink. -/
theorem approve_local_first_witness :
    (App.approveMaker
        ({ products :=
             [("7", { id := "7", name := "Acme", description := "", category := "ai",
                      publishedAt := 0, phLink := "https://x.com/a",
                      makerName := some "Jane", linkedin := none, status := "pending",
                      syncedToSheets := false, createdAt := 0, updatedAt := 0 })],
           productList := ["7"] } : DbSvc.Db) none "7" 99 "2024-01-01").1 =
      .approved { synced := false, error := some "Google Sheets service not available" } ∧
    lookupKV
        (App.approveMaker
          ({ products :=
               [("7", { id := "7", name := "Acme", description := "", category := "ai",
                        publishedAt := 0, phLink := "https://x.com/a",
                        makerName := some "Jane", linkedin := none, status := "pending",
                        syncedToSheets := false, createdAt := 0, updatedAt := 0 })],
             productList := ["7"] } : DbSvc.Db) none "7" 99 "2024-01-01").2.1.products "7" =
      some { App.setStatusApproved
               { id := "7", name := "Acme", description := "", category := "ai",
                 publishedAt := 0, phLink := "https://x.com/a", makerName := some "Jane",
                 linkedin := none, status := "pending", syncedToSheets := false,
                 createdAt := 0, updatedAt := 0 } with updatedAt := 99 } ∧
    ({ App.setStatusApproved
         { id := "7", name := "Acme", description := "", category := "ai", publishedAt := 0,
           phLink := "https://x.com/a", makerName := some "Jane", linkedin := none,
           status := "pending", syncedToSheets := false, createdAt := 0,
           updatedAt := 0 } with updatedAt := 99 } : DbSvc.Product).status = "approved" :=
  approve_local_first _ "7" 99 "2024-01-01" _ (by decide)

/-! ### Claim C6 — sink duplicate suppression

Every record of this system carries a non-empty canonical link: the
normalizer rejects entries without a truthy link, `normalizeLink` of a
non-empty link is non-empty, and `saveProduct` is the only record creator —
so the claim is settled for records with a non-empty `phLink`. -/

theorem checkForDuplicate_append_self (sheet : Sheets.Sheet) (p : DbSvc.Product) (d : String)
    (h : (∃ m, p.makerName = some m ∧ m ≠ "") ∨ p.phLink ≠ "") :
    Sheets.checkForDuplicate
      { rows := sheet.rows ++
          [{ dateApproved := d, makerName := jsOrStr p.makerName "Unknown",
             linkedin := jsOrStr p.linkedin "", productName := p.name,
             category := p.category, phLink := p.phLink }] }
      p.name p.makerName p.phLink = true := by
  unfold Sheets.checkForDuplicate
  rw [if_neg (by simp)]
  refine List.any_eq_true.mpr
    ⟨{ dateApproved := d, makerName := jsOrStr p.makerName "Unknown",
       linkedin := jsOrStr p.linkedin "", productName := p.name, category := p.category,
       phLink := p.phLink }, by simp, ?_⟩
  rcases h with ⟨m, hm, hmne⟩ | hpl
  · simp [hm, jsOrStr, hmne]
  · simp [hpl]

theorem checkForDuplicate_append_link (sheet : Sheets.Sheet) (p q : DbSvc.Product)
    (d : String) (hp : p.phLink ≠ "") (hq : q.phLink ≠ "")
    (hl : normalizeLink q.phLink = normalizeLink p.phLink) :
    Sheets.checkForDuplicate
      { rows := sheet.rows ++
          [{ dateApproved := d, makerName := jsOrStr p.makerName "Unknown",
             linkedin := jsOrStr p.linkedin "", productName := p.name,
             category := p.category, phLink := p.phLink }] }
      q.name q.makerName q.phLink = true := by
  unfold Sheets.checkForDuplicate
  rw [if_neg (by simp)]
  refine List.any_eq_true.mpr
    ⟨{ dateApproved := d, makerName := jsOrStr p.makerName "Unknown",
       linkedin := jsOrStr p.linkedin "", productName := p.name, category := p.category,
       phLink := p.phLink }, by simp, ?_⟩
  simp [hq, hp, hl]

/-- C6: for a record with a (necessarily) non-empty canonical link, two
`addApprovedMaker` calls with the same record put exactly one row in the
sink: the first call appends exactly one row when the sink does not already
contain a match, and the second call is detected as a duplicate — by the
(product name AND maker name) match or by the normalized-link match — and
treated as success without appending; a second record sharing the first's
normalized link is suppressed the same way. -/
theorem sink_duplicate_suppression (sheet : Sheets.Sheet) (p : DbSvc.Product) (d1 d2 : String)
    (hp : p.phLink ≠ "") :
    (Sheets.addApprovedMaker (some sheet) p d1).1 = true ∧
    Sheets.addApprovedMaker (Sheets.addApprovedMaker (some sheet) p d1).2 p d2 =
      (true, (Sheets.addApprovedMaker (some sheet) p d1).2) ∧
    (Sheets.checkForDuplicate sheet p.name p.makerName p.phLink = false →
      (Sheets.addApprovedMaker (some sheet) p d1).2 =
        some { rows := sheet.rows ++
          [{ dateApproved := d1, makerName := jsOrStr p.makerName "Unknown",
             linkedin := jsOrStr p.linkedin "", productName := p.name,
             category := p.category, phLink := p.phLink }] }) ∧
    (∀ (q : DbSvc.Product) (d3 : String),
      q.phLink ≠ "" →
      normalizeLink q.phLink = normalizeLink p.phLink →
      Sheets.checkForDuplicate sheet p.name p.makerName p.phLink = false →
      Sheets.addApprovedMaker (Sheets.addApprovedMaker (some sheet) p d1).2 q d3 =
        (true, (Sheets.addApprovedMaker (some sheet) p d1).2)) := by
  by_cases hdup : Sheets.checkForDuplicate sheet p.name p.makerName p.phLink = true
  · refine ⟨by simp [Sheets.addApprovedMaker, hdup], by simp [Sheets.addApprovedMaker, hdup],
      ?_, ?_⟩
    · intro hfalse
      rw [hdup] at hfalse
      exact absurd hfalse (by simp)
    · intro q d3 _ _ hfalse
      rw [hdup] at hfalse
      exact absurd hfalse (by simp)
  · have hdup0 : Sheets.checkForDuplicate sheet p.name p.makerName p.phLink = false := by
      simpa using hdup
    have h1 : Sheets.addApprovedMaker (some sheet) p d1 =
        (true, some { rows := sheet.rows ++
          [{ dateApproved := d1, makerName := jsOrStr p.makerName "Unknown",
             linkedin := jsOrStr p.linkedin "", productName := p.name,
             category := p.category, phLink := p.phLink }] }) := by
      simp [Sheets.addApprovedMaker, hdup0]
    refine ⟨by simp [h1], ?_, ?_, ?_⟩
    · rw [h1]
      simp [Sheets.addApprovedMaker,
        checkForDuplicate_append_self sheet p d1 (Or.inr hp)]
    · intro _
      rw [h1]
    · intro q d3 hq hl _
      rw [h1]
      simp [Sheets.addApprovedMaker, checkForDuplicate_append_link sheet p q d1 hp hq hl]

/-- Witness for C6: a record admitted twice into an empty sink — the second
call succeeds and leaves the one-row sink unchanged. -/
theorem sink_duplicate_suppression_witness :
    (Sheets.addApprovedMaker (some { rows := [] })
        { id := "1", name := "Acme", description := "", category := "ai", publishedAt := 0,
          phLink := "https://x.com/a", makerName := some "Jane", linkedin := none,
          status := "approved", syncedToSheets := false, createdAt := 0,
          updatedAt := 0 } "d1").1 = true ∧
    Sheets.addApprovedMaker
        (Sheets.addApprovedMaker (some { rows := [] })
          { id := "1", name := "Acme", description := "", category := "ai", publishedAt := 0,
            phLink := "https://x.com/a", makerName := some "Jane", linkedin := none,
            status := "approved", syncedToSheets := false, createdAt := 0,
            updatedAt := 0 } "d1").2
        { id := "1", name := "Acme", description := "", category := "ai", publishedAt := 0,
          phLink := "https://x.com/a", makerName := some "Jane", linkedin := none,
          status := "approved", syncedToSheets := false, createdAt := 0,
          updatedAt := 0 } "d2" =
      (true,
       (Sheets.addApprovedMaker (some { rows := [] })
          { id := "1", name := "Acme", description := "", category := "ai", publishedAt := 0,
            phLink := "https://x.com/a", makerName := some "Jane", linkedin := none,
            status := "approved", syncedToSheets := false, createdAt := 0,
            updatedAt := 0 } "d1").2) :=
  ⟨(sink_duplicate_suppression { rows := [] }
      { id := "1", name := "Acme", description := "", category := "ai", publishedAt := 0,
        phLink := "https://x.com/a", makerName := some "Jane", linkedin := none,
        status := "approved", syncedToSheets := false, createdAt := 0, updatedAt := 0 }
      "d1" "d2" (by decide)).1,
   (sink_duplicate_suppression { rows := [] }
      { id := "1", name := "Acme", description := "", category := "ai", publishedAt := 0,
        phLink := "https://x.com/a", makerName := some "Jane", linkedin := none,
        status := "approved", syncedToSheets := false, createdAt := 0, updatedAt := 0 }
      "d1" "d2" (by decide)).2.1⟩

/-! ### Claim C8 — profile-lookup candidate scoring -/

theorem bestScored_isSome (m : String) (r : LISvc.SearchResult)
    (rest : List LISvc.SearchResult) : (LISvc.bestScored m (r :: rest)).isSome = true := by
  cases h : LISvc.bestScored m rest
  · simp [LISvc.bestScored, h]
  · simp only [LISvc.bestScored, h]
    split <;> simp

theorem bestScored_spec (m : String) (rs : List LISvc.SearchResult)
    (b : LISvc.SearchResult × Nat) (h : LISvc.bestScored m rs = some b) :
    b.1 ∈ rs ∧ b.2 = LISvc.scoreResult m b.1 ∧
      ∀ r ∈ rs, LISvc.scoreResult m r ≤ b.2 := by
  induction rs generalizing b with
  | nil => simp [LISvc.bestScored] at h
  | cons r rest ih =>
    cases hrest : LISvc.bestScored m rest with
    | none =>
      simp only [LISvc.bestScored, hrest] at h
      have hb : b = (r, LISvc.scoreResult m r) := by
        cases h
        rfl
      subst hb
      refine ⟨by simp, rfl, ?_⟩
      intro r2 hr2
      rcases List.mem_cons.mp hr2 with h2 | h2
      · subst h2
        exact Nat.le_refl _
      · cases rest with
        | nil => simp at h2
        | cons a as =>
          have hsome := bestScored_isSome m a as
          rw [hrest] at hsome
          simp at hsome
    | some b2 =>
      simp only [LISvc.bestScored, hrest] at h
      obtain ⟨hmem, hsc, hmax⟩ := ih b2 hrest
      by_cases hgt : b2.2 > LISvc.scoreResult m r
      · rw [if_pos hgt] at h
        have hb : b = b2 := by
          cases h
          rfl
        subst hb
        refine ⟨List.mem_cons_of_mem _ hmem, hsc, ?_⟩
        intro r2 hr2
        rcases List.mem_cons.mp hr2 with h2 | h2
        · subst h2
          omega
        · exact hmax r2 h2
      · rw [if_neg hgt] at h
        have hb : b = (r, LISvc.scoreResult m r) := by
          cases h
          rfl
        subst hb
        refine ⟨by simp, rfl, ?_⟩
        intro r2 hr2
        rcases List.mem_cons.mp hr2 with h2 | h2
        · subst h2
          exact Nat.le_refl _
        · have := hmax r2 h2
          omega

/-- C8 amended: the candidates are the results whose link contains
`linkedin.com/in/`; each is scored +10 when the RAW maker name, lowercased
(not the cleaned name the spec describes), occurs verbatim in the lowercased
title, plus +2 per whitespace-token of that lowercased raw name longer than
2 characters found in the title and +1 per such token found in the snippet;
a returned link belongs to a positive-scoring candidate of maximal score
(the first such, per the stable sort), and a `null` outcome means every
candidate scored 0 (in particular a verbatim-title candidate, scoring at
least 10, is selected over candidates matching a single token, scoring at
most 3). -/
theorem profile_scoring_amended (results : List LISvc.SearchResult) (makerName : String) :
    (∀ link, LISvc.findBestLinkedInMatch results makerName = some link →
      ∃ r, r ∈ results ∧ containsSub r.link "linkedin.com/in/" = true ∧ r.link = link ∧
        0 < LISvc.scoreResult makerName r ∧
        ∀ r2 ∈ results, containsSub r2.link "linkedin.com/in/" = true →
          LISvc.scoreResult makerName r2 ≤ LISvc.scoreResult makerName r) ∧
    (LISvc.findBestLinkedInMatch results makerName = none →
      ∀ r ∈ results, containsSub r.link "linkedin.com/in/" = true →
        LISvc.scoreResult makerName r = 0) := by
  constructor
  · intro link h
    simp only [LISvc.findBestLinkedInMatch] at h
    by_cases hre : results.isEmpty
    · simp [hre] at h
    · rw [if_neg hre] at h
      by_cases hfe : (results.filter (fun r => containsSub r.link "linkedin.com/in/")).isEmpty
      · simp [hfe] at h
      · rw [if_neg hfe] at h
        cases hbs : LISvc.bestScored makerName
            (results.filter (fun r => containsSub r.link "linkedin.com/in/")) with
        | none =>
          rw [hbs] at h
          simp at h
        | some b =>
          simp only [hbs] at h
          by_cases hpos : b.2 > 0
          · rw [if_pos hpos] at h
            have hlk : b.1.link = link := by
              cases h
              rfl
            obtain ⟨hmem, hsc, hmax⟩ := bestScored_spec _ _ _ hbs
            obtain ⟨hmemr, hprop⟩ := List.mem_filter.mp hmem
            refine ⟨b.1, hmemr, by simpa using hprop, hlk, by omega, ?_⟩
            intro r2 hr2 hl2
            have := hmax r2 (List.mem_filter.mpr ⟨hr2, by simpa using hl2⟩)
            omega
          · rw [if_neg hpos] at h
            simp at h
  · intro h r hr hlink
    have hrf : r ∈ results.filter (fun r => containsSub r.link "linkedin.com/in/") :=
      List.mem_filter.mpr ⟨hr, by simpa using hlink⟩
    simp only [LISvc.findBestLinkedInMatch] at h
    by_cases hre : results.isEmpty
    · rw [List.isEmpty_iff] at hre
      subst hre
      simp at hr
    · rw [if_neg hre] at h
      by_cases hfe : (results.filter (fun r => containsSub r.link "linkedin.com/in/")).isEmpty
      · rw [List.isEmpty_iff] at hfe
        rw [hfe] at hrf
        simp at hrf
      · rw [if_neg hfe] at h
        cases hbs : LISvc.bestScored makerName
            (results.filter (fun r => containsSub r.link "linkedin.com/in/")) with
        | none =>
          cases hflt : results.filter (fun r => containsSub r.link "linkedin.com/in/") with
          | nil =>
            rw [hflt] at hrf
            simp at hrf
          | cons a as =>
            have hsome := bestScored_isSome makerName a as
            rw [← hflt, hbs] at hsome
            simp at hsome
        | some b =>
          simp only [hbs] at h
          by_cases hpos : b.2 > 0
          · rw [if_pos hpos] at h
            simp at h
          · obtain ⟨hmem, hsc, hmax⟩ := bestScored_spec _ _ _ hbs
            have := hmax r hrf
            omega

/-- Witness for C8 amended: for maker `Jane Doe`, a candidate whose title
contains the name verbatim (score 14) is selected over a candidate matching
only the token `doe` (score 2), even listed second. -/
theorem profile_scoring_amended_witness :
    ∃ r, r ∈ [({ title := "John Doe", snippet := "",
                 link := "https://linkedin.com/in/other" } : LISvc.SearchResult),
              ({ title := "Jane Doe - Founder", snippet := "",
                 link := "https://linkedin.com/in/jane-doe" } : LISvc.SearchResult)] ∧
      containsSub r.link "linkedin.com/in/" = true ∧
      r.link = "https://linkedin.com/in/jane-doe" ∧
      0 < LISvc.scoreResult "Jane Doe" r ∧
      ∀ r2 ∈ [({ title := "John Doe", snippet := "",
                 link := "https://linkedin.com/in/other" } : LISvc.SearchResult),
              ({ title := "Jane Doe - Founder", snippet := "",
                 link := "https://linkedin.com/in/jane-doe" } : LISvc.SearchResult)],
        containsSub r2.link "linkedin.com/in/" = true →
        LISvc.scoreResult "Jane Doe" r2 ≤ LISvc.scoreResult "Jane Doe" r :=
  (profile_scoring_amended
    [{ title := "John Doe", snippet := "", link := "https://linkedin.com/in/other" },
     { title := "Jane Doe - Founder", snippet := "",
       link := "https://linkedin.com/in/jane-doe" }] "Jane Doe").1
    "https://linkedin.com/in/jane-doe" (by decide)

/-- C8 counterexample: for maker `Jane@Doe` the cleaned name is `JaneDoe`,
which occurs verbatim in the candidate title, so the spec's scoring selects
the candidate (score 12); the source scores with the raw lowercased name
`jane@doe`, finds no occurrence and no token, scores 0, and yields
`not found`. -/
theorem profile_scoring_counterexample :
    LISvc.findBestLinkedInMatchSpec
        [{ title := "JaneDoe - CEO at Acme", snippet := "",
           link := "https://linkedin.com/in/janedoe" }] "Jane@Doe" =
      some "https://linkedin.com/in/janedoe" ∧
    LISvc.findBestLinkedInMatch
        [{ title := "JaneDoe - CEO at Acme", snippet := "",
           link := "https://linkedin.com/in/janedoe" }] "Jane@Doe" = none ∧
    containsSub (lowerStr "JaneDoe - CEO at Acme")
      (lowerStr (LISvc.cleanMakerName "Jane@Doe")) = true := by
  decide

/-! ### Claim C9 — normalizer scenario and rejection contract -/

/-- C9: the feed entry with title `Acme Tool`, link
`https://x.com/posts/acme?ref=1` and author `Jane Doe` normalizes to the
link `https://x.com/posts/acme` (query string dropped; a trailing slash
would likewise be dropped) with maker `Jane Doe`, and admitting it creates
a record with status `pending` and that maker; and every entry missing a
(truthy) title or link, or whose cleaned title is under 3 characters, is
rejected. -/
theorem normalizer_scenario :
    (RSS.extractProductData
        { title := some "Acme Tool", link := some "https://x.com/posts/acme?ref=1",
          author := some "Jane Doe" } "general" 0 =
      some { name := "Acme Tool", description := "", category := "general", publishedAt := 0,
             phLink := "https://x.com/posts/acme",
             originalLink := "https://x.com/posts/acme?ref=1", makerName := some "Jane Doe",
             linkedin := none } ∧
     normalizeLink "https://x.com/posts/acme/" = "https://x.com/posts/acme" ∧
     (DbSvc.saveProduct ({ products := [], productList := [] } : DbSvc.Db)
        { name := "Acme Tool", description := "", category := "general", publishedAt := 0,
          phLink := "https://x.com/posts/acme",
          originalLink := "https://x.com/posts/acme?ref=1", makerName := some "Jane Doe",
          linkedin := none } "id-1" 5).1.status = "pending" ∧
     (DbSvc.saveProduct ({ products := [], productList := [] } : DbSvc.Db)
        { name := "Acme Tool", description := "", category := "general", publishedAt := 0,
          phLink := "https://x.com/posts/acme",
          originalLink := "https://x.com/posts/acme?ref=1", makerName := some "Jane Doe",
          linkedin := none } "id-1" 5).1.makerName = some "Jane Doe") ∧
    (∀ (item : RSS.FeedItem) (category : String) (now : Nat),
      strTruthy item.title = false ∨ strTruthy item.link = false ∨
        (RSS.cleanTitle (item.title.getD "")).length < 3 →
      RSS.extractProductData item category now = none) := by
  constructor
  · exact ⟨by decide, by decide, by decide, by decide⟩
  · intro item category now h
    rcases h with h | h | h
    · simp [RSS.extractProductData, h]
    · simp [RSS.extractProductData, h]
    · by_cases h1 : strTruthy item.title = true
      · by_cases h2 : strTruthy item.link = true
        · simp [RSS.extractProductData, h1, h2, h]
        · rw [Bool.not_eq_true] at h2
          simp [RSS.extractProductData, h2]
      · rw [Bool.not_eq_true] at h1
        simp [RSS.extractProductData, h1]

/-- Witness for C9: an entry whose cleaned title `ab` has fewer than 3
characters yields no record. -/
theorem normalizer_scenario_witness :
    RSS.extractProductData
        { title := some "ab", link := some "https://x.com/a" } "general" 0 = none :=
  normalizer_scenario.2 { title := some "ab", link := some "https://x.com/a" } "general" 0
    (Or.inr (Or.inr (by decide)))

end PH
